import Mathlib

/-
Verification of the gallery media pipeline (storage service, validators,
upload pipelines, media orchestrator, featured cache, reorder transaction)
of the la-wed-be backend, as a shallow embedding in Lean.

JavaScript strings are modelled as Lean String, byte buffers as List Nat,
timestamps as Int milliseconds, the Prisma galleryMedia table as a
List MediaRecord, and thrown exceptions as Except values.  Asynchronous
effects (object-store writes, decode steps) are recorded as explicit
event traces.
-/

namespace LaWed

/-! ## Storage service (src/services/storageService.js) -/

/-- JS String.prototype.startsWith. -/
def jsStartsWith (s pre : String) : Bool :=
  pre.data.isPrefixOf s.data

/-- Remove the first (leftmost) occurrence of `pat` from the character list,
mirroring JS String.prototype.replace with a string pattern and an empty
replacement (no occurrence leaves the input unchanged). -/
def stripFirst (pat : List Char) : List Char → List Char
  | [] => []
  | c :: rest =>
    if pat.isPrefixOf (c :: rest) then (c :: rest).drop pat.length
    else c :: stripFirst pat rest

/-- JS url.replace(pat, empty string): drop the first occurrence of `pat`. -/
def jsReplaceFirst (s pat : String) : String :=
  ⟨stripFirst pat.data s.data⟩

/-- generatePublicUrl(key): publicUrl + "/" + key. -/
def generatePublicUrl (publicUrl key : String) : String :=
  publicUrl ++ "/" ++ key

/-- extractKeyFromUrl(url): null when url is falsy or does not start with
the configured public URL base, else url with the first occurrence of
publicUrl + "/" removed. -/
def extractKeyFromUrl (publicUrl url : String) : Option String :=
  if url = "" ∨ jsStartsWith url publicUrl = false then none
  else some (jsReplaceFirst url (publicUrl ++ "/"))

/-- String(n).padStart(2, zero): two-digit zero padding used for month/day. -/
def pad2 (n : Nat) : String :=
  if (toString n).length < 2 then "0" ++ toString n else toString n

/-- Characters of the path basename (after the last slash). -/
def basenameChars (s : List Char) : List Char :=
  s.foldl (fun acc c => if c = '/' then [] else acc ++ [c]) []

/-- Suffix starting at the last dot of the list, or [] when it has no dot. -/
def extTail : List Char → List Char
  | [] => []
  | c :: rest =>
    let r := extTail rest
    if r.isEmpty then (if c = '.' then c :: rest else []) else r

/-- Node path.extname: the extension (including the dot) of the basename;
a dot in the leading position of the basename does not start an extension. -/
def extname (filename : String) : String :=
  match basenameChars filename.data with
  | [] => ""
  | _ :: tail => ⟨extTail tail⟩

/-- Calendar date parts captured from `new Date()` at key-generation time
(month is getMonth() + 1, i.e. 1..12). -/
structure DateParts where
  year : Nat
  month : Nat
  day : Nat
deriving DecidableEq

/-- generateGalleryKey(mediaType, originalFilename, size): the date/uuid
structured object key.  The date and the crypto.randomUUID() draw are
explicit parameters of the embedding. -/
def generateGalleryKey (mediaType originalFilename : String) (size : String)
    (d : DateParts) (uuid : String) : String :=
  let ext := if size = "original" then extname originalFilename else ".webp"
  let sizeTag := if size = "original" then "" else "-" ++ size
  "gallery/" ++ mediaType ++ "/" ++ toString d.year ++ "/" ++ pad2 d.month ++
    "/" ++ pad2 d.day ++ "/" ++ uuid ++ sizeTag ++ ext

/-- The date-structured directory part of a gallery key, up to and
including the slash before the uuid. -/
def galleryKeyBase (mediaType : String) (d : DateParts) : String :=
  "gallery/" ++ mediaType ++ "/" ++ toString d.year ++ "/" ++ pad2 d.month ++
    "/" ++ pad2 d.day ++ "/"

/-- Storage environment: whether the object store accepts the delete of a
given key on this run. -/
def StorageEnv : Type := String → Bool

/-- delete(key): throws on transport failure, resolves with no value
otherwise. -/
def deleteOne (env : StorageEnv) (key : String) : Except String Unit :=
  if env key then Except.ok ()
  else Except.error ("Failed to delete file from storage: " ++ key)

/-- Outcome of one settled promise, as reported by Promise.allSettled. -/
inductive Settled (ε α : Type) where
  | fulfilled (a : α)
  | rejected (e : ε)
deriving DecidableEq

/-- Promise.allSettled: waits for every task and records each outcome;
never rejects, and one task's rejection does not discard the others. -/
def promiseAllSettled {ε α : Type} (tasks : List (Except ε α)) :
    List (Settled ε α) :=
  tasks.map fun t =>
    match t with
    | Except.ok a => Settled.fulfilled a
    | Except.error e => Settled.rejected e

/-- The per-key outcomes observed inside batchDelete(keys): every key's
delete is attempted and settled. -/
def batchDeleteSettled (env : StorageEnv) (keys : List String) :
    List (Settled String Unit) :=
  promiseAllSettled (keys.map (deleteOne env))

/-- batchDelete(keys): awaits Promise.allSettled over the per-key deletes,
discards the settled outcomes, and resolves with no value (undefined);
the surrounding try/catch can only rethrow a synchronous failure of
keys.map, which never occurs. -/
def batchDelete (env : StorageEnv) (keys : List String) : Except String Unit :=
  let _settled := batchDeleteSettled env keys
  Except.ok ()

/-- Modelled from the spec: the return value §4.4 describes for batch
delete, "the call returns succeeded/failed sets rather than throwing".
This definition follows the spec's words; it is the comparison point for
the source's batchDelete, which resolves with no value. -/
def batchDeleteSpecModel (env : StorageEnv) (keys : List String) :
    List String × List String :=
  (keys.filter (fun k => env k), keys.filter (fun k => !(env k)))

/-! ## Data model (prisma galleryMedia rows) -/

/-- The r2Urls JSON column: variant name to public URL.  The same shape is
used for the r2Keys map of an upload result. -/
structure R2Map where
  original : Option String
  thumbnail : Option String
  medium : Option String
  large : Option String
deriving DecidableEq

/-- One galleryMedia row, with the fields the verified operations read. -/
structure MediaRecord where
  id : String
  mediaType : String
  r2ObjectKey : String
  r2Urls : R2Map
  featured : Bool
  displayOrder : Int
  deletedAt : Option Int
  filename : String
deriving DecidableEq

/-! ## Gallery media service (src/services/galleryMediaService.js) -/

/-- Per-kind media configuration (MEDIA_CONFIG.images / MEDIA_CONFIG.videos):
allow-listed MIME types and maximum byte size. -/
structure MediaKindConfig where
  allowedTypes : List String
  maxSize : Nat
deriving DecidableEq

/-- MEDIA_CONFIG.images with defaults (10MB, four image MIME types). -/
def imageConfigDefault : MediaKindConfig :=
  { allowedTypes := ["image/jpeg", "image/png", "image/webp", "image/tiff"]
    maxSize := 10485760 }

/-- MEDIA_CONFIG.videos with defaults (100MB, three video MIME types). -/
def videoConfigDefault : MediaKindConfig :=
  { allowedTypes := ["video/mp4", "video/quicktime", "video/x-msvideo"]
    maxSize := 104857600 }

/-- A multer file object: declared MIME type, byte size, buffer, name. -/
structure MulterFile where
  mimetype : String
  size : Nat
  buffer : List Nat
  originalname : String
deriving DecidableEq

/-- The three ways validation can throw. -/
inductive ValidationErr where
  | noFile
  | typeNotAllowed
  | sizeExceeded
deriving DecidableEq

/-- validateMediaFile(file, mediaType): no-file check, then MIME allow-list,
then byte-size ceiling, picking the video or image config by mediaType.
The source throws Error values whose messages distinguish exactly these
three cases; the buffer contents are never inspected. -/
def validateMediaFile (file? : Option MulterFile) (mediaType : String)
    (imageConfig videoConfig : MediaKindConfig) : Except ValidationErr Unit :=
  match file? with
  | none => Except.error ValidationErr.noFile
  | some file =>
    let config := if mediaType = "video" then videoConfig else imageConfig
    if config.allowedTypes.contains file.mimetype = false then
      Except.error ValidationErr.typeNotAllowed
    else if file.size > config.maxSize then
      Except.error ValidationErr.sizeExceeded
    else
      Except.ok ()

/-- validateVideo(file) of videoProcessingService: same checks against the
video config only. -/
def validateVideo (file? : Option MulterFile) (videoConfig : MediaKindConfig) :
    Except ValidationErr Unit :=
  match file? with
  | none => Except.error ValidationErr.noFile
  | some file =>
    if videoConfig.allowedTypes.contains file.mimetype = false then
      Except.error ValidationErr.typeNotAllowed
    else if file.size > videoConfig.maxSize then
      Except.error ValidationErr.sizeExceeded
    else
      Except.ok ()

/-- collectKeysToDelete(r2Keys, mediaType): the values pushed for a batch
delete - all four variants for an image, original and thumbnail for a
video.  JS pushes a value only when it is truthy, so present non-empty
strings are kept. -/
def collectKeysToDelete (r2Keys : R2Map) (mediaType : String) : List String :=
  let keep : Option String → List String := fun v =>
    match v with
    | some s => if s = "" then [] else [s]
    | none => []
  if mediaType = "image" then
    keep r2Keys.original ++ keep r2Keys.thumbnail ++
      keep r2Keys.medium ++ keep r2Keys.large
  else if mediaType = "video" then
    keep r2Keys.original ++ keep r2Keys.thumbnail
  else
    []

/-- getMediaById(id): findUnique on id excluding soft-deleted rows. -/
def getMediaById (db : List MediaRecord) (id : String) : Option MediaRecord :=
  db.find? (fun m => m.id = id ∧ m.deletedAt = none)

/-- hardDeleteMedia(id): findUnique on id (without a deletedAt filter),
not-found error when absent; otherwise deleteMediaFiles passes
media.r2Urls as the r2Keys argument of collectKeysToDelete, the collected
values are handed to storageService.batchDelete (which never throws), and
the row is deleted.  Returns the remaining rows paired with the values
issued to the storage batch delete. -/
def hardDeleteMedia (db : List MediaRecord) (id : String) :
    Except String (List MediaRecord × List String) :=
  match db.find? (fun m => m.id = id) with
  | none => Except.error ("Media " ++ id ++ " not found")
  | some media =>
    let issued := collectKeysToDelete media.r2Urls media.mediaType
    Except.ok (db.filter (fun m => !(m.id = media.id)), issued)

/-- prisma updateMany: rewrite every row satisfying cond with upd and
report the number of matched rows. -/
def updateMany (cond : MediaRecord → Bool) (upd : MediaRecord → MediaRecord)
    (db : List MediaRecord) : List MediaRecord × Nat :=
  (db.map (fun m => if cond m then upd m else m), (db.filter cond).length)

/-- bulkDeleteMedia(ids): updateMany over id-in-ids (no deletedAt filter)
stamping deletedAt with the current time, returning the update count and
the input id list. -/
def bulkDeleteMedia (db : List MediaRecord) (now : Int) (ids : List String) :
    List MediaRecord × Nat × List String :=
  let r := updateMany (fun m => ids.contains m.id)
    (fun m => { m with deletedAt := some now }) db
  (r.1, r.2, ids)

/-! ## Featured cache (src/routes/proxy.js) -/

/-- The module-level featuredCache slot. -/
structure FeaturedCache where
  data : Option (List MediaRecord)
  timestamp : Option Int
  ttl : Int
deriving DecidableEq

/-- The slot as initialised at module load: empty, ttl of 5 minutes. -/
def initialFeaturedCache : FeaturedCache :=
  { data := none, timestamp := none, ttl := 5 * 60 * 1000 }

/-- Ascending insertion by displayOrder. -/
def insertByDisplayOrder (m : MediaRecord) :
    List MediaRecord → List MediaRecord
  | [] => [m]
  | x :: xs =>
    if m.displayOrder ≤ x.displayOrder then m :: x :: xs
    else x :: insertByDisplayOrder m xs

/-- orderBy displayOrder asc. -/
def sortByDisplayOrder (l : List MediaRecord) : List MediaRecord :=
  l.foldr insertByDisplayOrder []

/-- The featured query: findMany where featured and not soft-deleted,
ordered by displayOrder ascending, take 10. -/
def computeFeaturedItems (db : List MediaRecord) : List MediaRecord :=
  (sortByDisplayOrder
    (db.filter (fun m => m.featured ∧ m.deletedAt = none))).take 10

/-- The featured read handler: serve the slot when its data and timestamp
are truthy and now - timestamp < ttl; otherwise run the featured query
and replace the slot with the fresh payload, the present time and the
unchanged ttl.  Result: served payload, cache-hit flag, new slot. -/
def featuredRead (cache : FeaturedCache) (now : Int)
    (db : List MediaRecord) : List MediaRecord × Bool × FeaturedCache :=
  match cache.data, cache.timestamp with
  | some d, some t =>
    if t ≠ 0 ∧ now - t < cache.ttl then (d, true, cache)
    else
      let items := computeFeaturedItems db
      (items, false, { data := some items, timestamp := some now, ttl := cache.ttl })
  | _, _ =>
    let items := computeFeaturedItems db
    (items, false, { data := some items, timestamp := some now, ttl := cache.ttl })

/-! ## Reorder transaction (PUT /api/gallery/reorder in src/routes/proxy.js) -/

/-- One reorder request item. -/
structure ReorderItem where
  id : String
  displayOrder : Int
deriving DecidableEq

/-- The response shapes the reorder handler can produce. -/
inductive ReorderResponse where
  | ok (updated : Nat)
  | notFound (missingIds : List String)
  | txError
deriving DecidableEq

/-- Effect of one prisma update on one row: set displayOrder when the id
matches, leave the row alone otherwise. -/
def reorderStep (m : MediaRecord) (it : ReorderItem) : MediaRecord :=
  if m.id = it.id then { m with displayOrder := it.displayOrder } else m

/-- prisma.galleryMedia.update inside the transaction: set displayOrder on
the row with the given id. -/
def applyReorderUpdate (db : List MediaRecord) (it : ReorderItem) :
    List MediaRecord :=
  db.map (fun m => reorderStep m it)

/-- prisma.$transaction over the per-item updates: when every update finds
its row the whole batch commits, otherwise the first P2025 rolls the
whole transaction back and no row changes. -/
def runReorderTransaction (db : List MediaRecord) (items : List ReorderItem) :
    Except Unit (List MediaRecord) :=
  if items.all (fun it => db.any (fun m => m.id = it.id)) then
    Except.ok (items.foldl applyReorderUpdate db)
  else
    Except.error ()

/-- The reorder handler body: findMany over the requested ids restricted to
non-soft-deleted rows; when the count of found rows differs from the
count of requested ids, answer 404 with the ids that matched no row and
leave the table untouched; otherwise run the update transaction. -/
def reorderHandler (db : List MediaRecord) (items : List ReorderItem) :
    ReorderResponse × List MediaRecord :=
  let ids := items.map (fun it => it.id)
  let existing := db.filter (fun m => ids.contains m.id ∧ m.deletedAt = none)
  if existing.length ≠ ids.length then
    let foundIds := existing.map (fun m => m.id)
    let missingIds := ids.filter (fun i => !(foundIds.contains i))
    (ReorderResponse.notFound missingIds, db)
  else
    match runReorderTransaction db items with
    | Except.ok db2 => (ReorderResponse.ok items.length, db2)
    | Except.error _ => (ReorderResponse.txError, db)

/-! ## Video thumbnail scratch files (videoProcessingService.generateThumbnail) -/

/-- The timestamp-named scratch path the video buffer is written to. -/
def tempVideoPath (now : Int) : String :=
  "/tmp/video-" ++ toString now ++ ".mp4"

/-- The timestamp-named scratch path the extracted frame is written to. -/
def tempThumbPath (now : Int) : String :=
  "/tmp/thumb-" ++ toString now ++ ".png"

/-- How one generateThumbnail invocation can go: ffmpeg screenshot failure
(error event, no frame file), failure while reading or re-encoding the
extracted frame inside the end handler, or full success. -/
inductive ThumbOutcome where
  | screenshotError (msg : String)
  | processError (msg : String)
  | frameOk (thumb : List Nat)
deriving DecidableEq

deriving instance DecidableEq for Except

/-- Observable effects of one generateThumbnail run. -/
structure ThumbRun where
  result : Except String (List Nat)
  created : List String
  deleted : List String
deriving DecidableEq

/-- generateThumbnail(videoBuffer): writes the video scratch file, runs the
ffmpeg screenshot, and in the end handler reads and re-encodes the frame.
Scratch-file unlinks are exactly the ones the source performs on each
path: both files after a successful re-encode, only the video file in the
error-event handler, and none when reading or re-encoding the frame
fails (that catch only rejects). -/
def generateThumbnail (now : Int) (outcome : ThumbOutcome) : ThumbRun :=
  let v := tempVideoPath now
  let t := tempThumbPath now
  match outcome with
  | ThumbOutcome.screenshotError m =>
    { result := Except.error ("Failed to generate thumbnail: " ++ m)
      created := [v]
      deleted := [v] }
  | ThumbOutcome.processError m =>
    { result := Except.error ("Failed to process thumbnail: " ++ m)
      created := [v, t]
      deleted := [] }
  | ThumbOutcome.frameOk buf =>
    { result := Except.ok buf
      created := [v, t]
      deleted := [v, t] }

/-! ## Upload pipelines with effect traces (uploadImage / uploadVideo) -/

/-- One observable pipeline event: successful validation, a processing
step (decode, probe, resize, frame extraction), or an object-store write
being issued. -/
inductive PipeEv where
  | validated (kind : String)
  | processStep (name : String)
  | storeWrite (key : String)
deriving DecidableEq

/-- Errors an upload pipeline can surface. -/
inductive UploadErr where
  | validation (e : ValidationErr)
  | processing (msg : String)
  | storage (msg : String)
deriving DecidableEq

/-- Probe result of sharp(buffer).metadata(). -/
structure ImgInfo where
  width : Nat
  height : Nat
  format : String
deriving DecidableEq

/-- ffprobe result for a video. -/
structure VideoMeta where
  duration : Nat
  width : Nat
  height : Nat
  codec : String
deriving DecidableEq

/-- Environment for one upload request: the date and uuid draws used by
generateGalleryKey (keyed by the size argument of each call), and the
outcome of every external step (sharp probe, per-size variant encode,
per-key store upload, ffprobe, video thumbnail generation). -/
structure UploadEnv where
  date : DateParts
  uuid : String → String
  sharpMeta : Except String ImgInfo
  variantGen : String → Except String (List Nat)
  upload : String → Except String Unit
  ffprobe : Except String VideoMeta
  thumbGen : Except String (List Nat)

/-- uploadImage(file): validate, extract EXIF (best effort), probe
dimensions, upload the original, then generate the three variants in
parallel and upload them in parallel; Promise.all starts every task of a
stage, so all three variant encodes run even if one fails, and all three
variant uploads are issued together.  Returns the outcome (the key map on
success) and the event trace. -/
def uploadImageRun (imageConfig videoConfig : MediaKindConfig)
    (env : UploadEnv) (file : MulterFile) :
    Except UploadErr R2Map × List PipeEv :=
  match validateMediaFile (some file) "image" imageConfig videoConfig with
  | Except.error e => (Except.error (UploadErr.validation e), [])
  | Except.ok _ =>
    let tr1 := [PipeEv.validated "image", PipeEv.processStep "exif",
      PipeEv.processStep "sharpMetadata"]
    match env.sharpMeta with
    | Except.error e => (Except.error (UploadErr.processing e), tr1)
    | Except.ok _ =>
      let kO := generateGalleryKey "images" file.originalname "original"
        env.date (env.uuid "original")
      let tr2 := tr1 ++ [PipeEv.storeWrite kO]
      match env.upload kO with
      | Except.error e => (Except.error (UploadErr.storage e), tr2)
      | Except.ok _ =>
        let tr3 := tr2 ++ [PipeEv.processStep "variant-thumbnail",
          PipeEv.processStep "variant-medium", PipeEv.processStep "variant-large"]
        match env.variantGen "thumbnail", env.variantGen "medium",
            env.variantGen "large" with
        | Except.ok _, Except.ok _, Except.ok _ =>
          let kT := generateGalleryKey "images" file.originalname "thumbnail"
            env.date (env.uuid "thumbnail")
          let kM := generateGalleryKey "images" file.originalname "medium"
            env.date (env.uuid "medium")
          let kL := generateGalleryKey "images" file.originalname "large"
            env.date (env.uuid "large")
          let tr4 := tr3 ++ [PipeEv.storeWrite kT, PipeEv.storeWrite kM,
            PipeEv.storeWrite kL]
          match env.upload kT, env.upload kM, env.upload kL with
          | Except.ok _, Except.ok _, Except.ok _ =>
            (Except.ok (R2Map.mk (some kO) (some kT) (some kM) (some kL)), tr4)
          | _, _, _ =>
            (Except.error (UploadErr.storage "Failed to generate image variants"), tr4)
        | _, _, _ =>
          (Except.error (UploadErr.processing "Failed to generate image variants"), tr3)

/-- videoProcessingService.uploadVideo(file, filename): validate, probe
metadata through ffprobe on a scratch copy, generate the two keys, upload
the original, generate the thumbnail frame, upload the thumbnail.
Returns the outcome (original and thumbnail keys on success) and the
event trace. -/
def uploadVideoRun (videoConfig : MediaKindConfig) (env : UploadEnv)
    (file : MulterFile) : Except UploadErr R2Map × List PipeEv :=
  match validateVideo (some file) videoConfig with
  | Except.error e => (Except.error (UploadErr.validation e), [])
  | Except.ok _ =>
    let tr1 := [PipeEv.validated "video", PipeEv.processStep "ffprobe"]
    match env.ffprobe with
    | Except.error e => (Except.error (UploadErr.processing e), tr1)
    | Except.ok _ =>
      let kV := generateGalleryKey "videos" file.originalname "original"
        env.date (env.uuid "original")
      let kT := generateGalleryKey "videos" file.originalname "thumbnail"
        env.date (env.uuid "thumbnail")
      let tr2 := tr1 ++ [PipeEv.storeWrite kV]
      match env.upload kV with
      | Except.error e => (Except.error (UploadErr.storage e), tr2)
      | Except.ok _ =>
        let tr3 := tr2 ++ [PipeEv.processStep "generateThumbnail"]
        match env.thumbGen with
        | Except.error e => (Except.error (UploadErr.processing e), tr3)
        | Except.ok _ =>
          let tr4 := tr3 ++ [PipeEv.storeWrite kT]
          match env.upload kT with
          | Except.error e => (Except.error (UploadErr.storage e), tr4)
          | Except.ok _ =>
            (Except.ok (R2Map.mk (some kV) (some kT) none none), tr4)

/-- Is this event an object-store write? -/
def isStoreWrite : PipeEv → Bool
  | PipeEv.storeWrite _ => true
  | _ => false

/-- Is this event a processing step? -/
def isProcessStep : PipeEv → Bool
  | PipeEv.processStep _ => true
  | _ => false

/-! ## Concrete sample data used by witnesses and counterexamples -/

/-- A configured R2 public URL base. -/
def pubBase : String := "https://pub.example.com"

/-- Object key of a stored original image. -/
def keyOriginal : String := "gallery/images/2025/10/01/aaaa.jpg"

/-- Object key of the stored thumbnail variant. -/
def keyThumb : String := "gallery/images/2025/10/01/bbbb-thumbnail.webp"

/-- Object key of the stored medium variant. -/
def keyMedium : String := "gallery/images/2025/10/01/cccc-medium.webp"

/-- Object key of the stored large variant. -/
def keyLarge : String := "gallery/images/2025/10/01/dddd-large.webp"

/-- The r2Urls column value of a stored image row: public URLs generated
from the four object keys. -/
def sampleUrls : R2Map :=
  R2Map.mk (some (generatePublicUrl pubBase keyOriginal))
    (some (generatePublicUrl pubBase keyThumb))
    (some (generatePublicUrl pubBase keyMedium))
    (some (generatePublicUrl pubBase keyLarge))

/-- A stored image row with its four variants. -/
def sampleMedia : MediaRecord :=
  { id := "m1"
    mediaType := "image"
    r2ObjectKey := keyOriginal
    r2Urls := sampleUrls
    featured := false
    displayOrder := 0
    deletedAt := none
    filename := "a.jpg" }

/-- A storage run on which every delete succeeds. -/
def envAllOk : StorageEnv := fun _ => true

/-- A storage run on which the delete of key k1 fails. -/
def envFailK1 : StorageEnv := fun k => !(k == "k1")

/-- A file with an allowed image type, conforming size, and empty buffer. -/
def emptyBufferFile : MulterFile :=
  { mimetype := "image/jpeg"
    size := 0
    buffer := []
    originalname := "empty.jpg" }

/-- An image file over the 10MB default ceiling. -/
def oversizedImage : MulterFile :=
  { mimetype := "image/jpeg"
    size := 10485761
    buffer := [0]
    originalname := "big.jpg" }

/-- A video file over the 100MB default ceiling. -/
def oversizedVideo : MulterFile :=
  { mimetype := "video/mp4"
    size := 104857601
    buffer := [0]
    originalname := "big.mp4" }

/-- A valid small image file. -/
def smallImage : MulterFile :=
  { mimetype := "image/png"
    size := 2048
    buffer := [1, 2, 3]
    originalname := "ok.png" }

/-- An upload environment on which every external step succeeds. -/
def happyEnv : UploadEnv :=
  { date := DateParts.mk 2025 10 1
    uuid := fun sz => "uuid-" ++ sz
    sharpMeta := Except.ok (ImgInfo.mk 2000 1500 "jpeg")
    variantGen := fun _ => Except.ok [7]
    upload := fun _ => Except.ok ()
    ffprobe := Except.ok (VideoMeta.mk 10 1280 720 "h264")
    thumbGen := Except.ok [9] }

/-- A featured, non-deleted row. -/
def featRec : MediaRecord :=
  { id := "f1"
    mediaType := "image"
    r2ObjectKey := "k"
    r2Urls := R2Map.mk none none none none
    featured := true
    displayOrder := 1
    deletedAt := none
    filename := "f.jpg" }

/-- A warm featured-cache slot populated at time 10. -/
def hitCache : FeaturedCache :=
  { data := some [featRec]
    timestamp := some 10
    ttl := 300000 }

/-- An active (non-deleted) row with id a. -/
def recA : MediaRecord :=
  { id := "a"
    mediaType := "image"
    r2ObjectKey := "k"
    r2Urls := R2Map.mk none none none none
    featured := false
    displayOrder := 0
    deletedAt := none
    filename := "a.jpg" }

/-- A row soft-deleted at time 5. -/
def recDel : MediaRecord :=
  { id := "d"
    mediaType := "image"
    r2ObjectKey := "k"
    r2Urls := R2Map.mk none none none none
    featured := false
    displayOrder := 0
    deletedAt := some 5
    filename := "d.jpg" }

/-- A reorder batch listing the same existing id twice. -/
def dupItems : List ReorderItem :=
  [ReorderItem.mk "a" 1, ReorderItem.mk "a" 2]

/-! ## Theorems -/

/-- Claim C3: batchDelete settles every key independently - the second
key is fulfilled although the first rejects - never rejects itself, but
resolves with no value: its result on a run with a failing key is
identical to its result on an all-success run, so it cannot report the
succeeded/failed sets the spec (and the repo's own integration test on
deleteMediaFiles) describe, unlike the spec-modelled return value. -/
theorem batchDelete_no_failure_report :
    deleteOne envFailK1 "k1" =
      Except.error "Failed to delete file from storage: k1" ∧
    batchDeleteSettled envFailK1 ["k1", "k2"] =
      [Settled.rejected "Failed to delete file from storage: k1",
        Settled.fulfilled ()] ∧
    batchDelete envFailK1 ["k1", "k2"] = Except.ok () ∧
    batchDelete envFailK1 ["k1", "k2"] = batchDelete envAllOk ["k1", "k2"] ∧
    batchDeleteSettled envFailK1 ["k1", "k2"] ≠
      batchDeleteSettled envAllOk ["k1", "k2"] ∧
    batchDeleteSpecModel envFailK1 ["k1", "k2"] = (["k2"], ["k1"]) :=
  ⟨rfl, rfl, rfl, rfl, by decide, by decide⟩

/-- Claim C6: on the run where the extracted frame cannot be read back or
re-encoded, generateThumbnail rejects while both scratch files it created
remain on disk (no unlink on that path); on the successful run both are
deleted. -/
theorem generateThumbnail_skips_cleanup :
    (generateThumbnail 0 (ThumbOutcome.processError "resize failed")).created =
      [tempVideoPath 0, tempThumbPath 0] ∧
    (generateThumbnail 0 (ThumbOutcome.processError "resize failed")).deleted = [] ∧
    (generateThumbnail 0 (ThumbOutcome.processError "resize failed")).result =
      Except.error "Failed to process thumbnail: resize failed" ∧
    (generateThumbnail 0 (ThumbOutcome.frameOk [9])).deleted =
      (generateThumbnail 0 (ThumbOutcome.frameOk [9])).created :=
  ⟨rfl, rfl, rfl, rfl⟩

/-- Claim C5, counterexample: a file whose MIME type is allow-listed and
whose size conforms passes validateMediaFile even though its buffer is
empty - no empty-buffer validation error exists in the code. -/
theorem validate_empty_buffer_passes :
    emptyBufferFile.buffer = [] ∧
    imageConfigDefault.allowedTypes.contains emptyBufferFile.mimetype = true ∧
    emptyBufferFile.size ≤ imageConfigDefault.maxSize ∧
    validateMediaFile (some emptyBufferFile) "image" imageConfigDefault
      videoConfigDefault = Except.ok () ∧
    validateVideo (some (MulterFile.mk "video/mp4" 0 [] "e.mp4"))
      videoConfigDefault = Except.ok () := by
  refine ⟨rfl, by decide, by decide, ?_, ?_⟩ <;> decide

/-- Claim C5, amended: each validator succeeds or fails with exactly one of
three errors - no file provided, MIME type not in the kind's allow-list,
or size over the kind's ceiling - and a present file with allowed type
and conforming size always passes, its buffer never being inspected. -/
theorem validate_error_cases (file? : Option MulterFile) (mediaType : String)
    (ci cv : MediaKindConfig) :
    (file? = none →
      validateMediaFile file? mediaType ci cv = Except.error ValidationErr.noFile ∧
      validateVideo file? cv = Except.error ValidationErr.noFile) ∧
    (∀ f, file? = some f →
      ((if mediaType = "video" then cv else ci).allowedTypes.contains f.mimetype = false →
        validateMediaFile file? mediaType ci cv = Except.error ValidationErr.typeNotAllowed) ∧
      ((if mediaType = "video" then cv else ci).allowedTypes.contains f.mimetype = true →
        f.size > (if mediaType = "video" then cv else ci).maxSize →
        validateMediaFile file? mediaType ci cv = Except.error ValidationErr.sizeExceeded) ∧
      ((if mediaType = "video" then cv else ci).allowedTypes.contains f.mimetype = true →
        f.size ≤ (if mediaType = "video" then cv else ci).maxSize →
        validateMediaFile file? mediaType ci cv = Except.ok ()) ∧
      (cv.allowedTypes.contains f.mimetype = false →
        validateVideo file? cv = Except.error ValidationErr.typeNotAllowed) ∧
      (cv.allowedTypes.contains f.mimetype = true → f.size > cv.maxSize →
        validateVideo file? cv = Except.error ValidationErr.sizeExceeded) ∧
      (cv.allowedTypes.contains f.mimetype = true → f.size ≤ cv.maxSize →
        validateVideo file? cv = Except.ok ())) := by
  constructor
  · intro h
    subst h
    exact ⟨rfl, rfl⟩
  · intro f hf
    subst hf
    refine ⟨fun hc => ?_, fun hc hs => ?_, fun hc hs => ?_,
      fun hc => ?_, fun hc hs => ?_, fun hc hs => ?_⟩
    · simp at hc
      simp [validateMediaFile, hc]
    · simp at hc
      simp [validateMediaFile, hc, hs]
    · have hns : ¬ (f.size > (if mediaType = "video" then cv else ci).maxSize) := by
        omega
      simp at hc
      simp [validateMediaFile, hc, hns]
    · simp at hc
      simp [validateVideo, hc]
    · simp at hc
      simp [validateVideo, hc, hs]
    · have hns : ¬ (f.size > cv.maxSize) := by omega
      simp at hc
      simp [validateVideo, hc, hns]

/-- Claim C5, witness: the amended theorem applied to the oversized image
file. -/
theorem validate_error_cases_witness :
    validateMediaFile (some oversizedImage) "image" imageConfigDefault
      videoConfigDefault = Except.error ValidationErr.sizeExceeded :=
  ((validate_error_cases (some oversizedImage) "image" imageConfigDefault
    videoConfigDefault).2 oversizedImage rfl).2.1 (by decide) (by decide)

/-- Claim C2: hardDeleteMedia hands the storage batch delete the values of
the row's url map - full public URLs, each of which extracts back to the
row's object key - rather than the object keys themselves; the row is
removed (getMediaById then misses), and an unknown id yields the
not-found error. -/
theorem hardDeleteMedia_issues_urls :
    hardDeleteMedia [sampleMedia] "m1" =
      Except.ok ([], [generatePublicUrl pubBase keyOriginal,
        generatePublicUrl pubBase keyThumb,
        generatePublicUrl pubBase keyMedium,
        generatePublicUrl pubBase keyLarge]) ∧
    [generatePublicUrl pubBase keyOriginal, generatePublicUrl pubBase keyThumb,
      generatePublicUrl pubBase keyMedium, generatePublicUrl pubBase keyLarge] ≠
      [keyOriginal, keyThumb, keyMedium, keyLarge] ∧
    extractKeyFromUrl pubBase (generatePublicUrl pubBase keyOriginal) =
      some keyOriginal ∧
    getMediaById [] "m1" = none ∧
    hardDeleteMedia [sampleMedia] "zz" = Except.error "Media zz not found" := by
  refine ⟨rfl, by decide, by decide, rfl, rfl⟩

/-- Claim C10: bulkDeleteMedia raises no error, returns the input id list
with the count of matched rows, and stamps deletedAt with the present
time on exactly the rows whose id is listed - soft-deleted rows included,
their earlier timestamp being overwritten - while rows with unlisted ids
(and hence ids matching no row) are left untouched. -/
theorem bulkDeleteMedia_stamps (db : List MediaRecord) (now : Int)
    (ids : List String) :
    (bulkDeleteMedia db now ids).2.2 = ids ∧
    (bulkDeleteMedia db now ids).2.1 = db.countP (fun m => ids.contains m.id) ∧
    (bulkDeleteMedia db now ids).1.length = db.length ∧
    (∀ (i : Nat) (m₀ : MediaRecord), db[i]? = some m₀ →
      (bulkDeleteMedia db now ids).1[i]? =
        some (if ids.contains m₀.id then { m₀ with deletedAt := some now }
          else m₀)) := by
  refine ⟨rfl, ?_, ?_, ?_⟩
  · simp [bulkDeleteMedia, updateMany, List.countP_eq_length_filter]
  · simp [bulkDeleteMedia, updateMany]
  · intro i m₀ h
    simp [bulkDeleteMedia, updateMany, List.getElem?_map, h]

/-- Removing a pattern from a list it heads leaves exactly the tail. -/
theorem stripFirst_of_append (pat rest : List Char) (h : pat ≠ []) :
    stripFirst pat (pat ++ rest) = rest := by
  cases pat with
  | nil => exact absurd rfl h
  | cons p ps =>
    have hpre : (p :: ps).isPrefixOf (p :: (ps ++ rest)) = true := by
      rw [List.isPrefixOf_iff_prefix]
      exact ⟨rest, by simp⟩
    show stripFirst (p :: ps) (p :: (ps ++ rest)) = rest
    simp only [stripFirst, hpre, if_true, List.length_cons, List.drop_succ_cons]
    exact List.drop_left ps rest

/-- Claim C9: extracting the key back from a generated public URL is the
identity for every non-empty key, and extractKeyFromUrl answers none on
any url that does not start with the configured public URL base. -/
theorem extractKey_roundtrip (publicUrl key url : String) :
    (key ≠ "" →
      extractKeyFromUrl publicUrl (generatePublicUrl publicUrl key) = some key) ∧
    (jsStartsWith url publicUrl = false →
      extractKeyFromUrl publicUrl url = none) := by
  constructor
  · intro _
    have hdata : (generatePublicUrl publicUrl key).data =
        (publicUrl ++ "/").data ++ key.data :=
      String.data_append (publicUrl ++ "/") key
    have hpat : (publicUrl ++ "/").data = publicUrl.data ++ ['/'] := by
      rw [String.data_append]
    have hne : ¬ (generatePublicUrl publicUrl key = "") := by
      intro h0
      have h1 := congrArg String.data h0
      rw [hdata, hpat] at h1
      simp at h1
    have hsw : jsStartsWith (generatePublicUrl publicUrl key) publicUrl = true := by
      unfold jsStartsWith
      rw [List.isPrefixOf_iff_prefix, hdata, hpat, List.append_assoc]
      exact List.prefix_append publicUrl.data (['/'] ++ key.data)
    unfold extractKeyFromUrl
    rw [if_neg]
    · congr 1
      apply String.ext_iff.mpr
      show stripFirst (publicUrl ++ "/").data (generatePublicUrl publicUrl key).data =
        key.data
      rw [hdata]
      apply stripFirst_of_append
      rw [hpat]
      simp
    · rintro (h | h)
      · exact hne h
      · rw [hsw] at h
        cases h
  · intro h
    unfold extractKeyFromUrl
    rw [if_pos (Or.inr h)]

/-- Claim C9, witness: the round trip and the foreign-URL rejection at
concrete inputs. -/
theorem extractKey_roundtrip_witness :
    ("gallery/a.jpg" ≠ "" ∧
      extractKeyFromUrl pubBase (generatePublicUrl pubBase "gallery/a.jpg") =
        some "gallery/a.jpg") ∧
    (jsStartsWith "ftp://other/x" pubBase = false ∧
      extractKeyFromUrl pubBase "ftp://other/x" = none) :=
  ⟨⟨by decide,
    (extractKey_roundtrip pubBase "gallery/a.jpg" "ftp://other/x").1 (by decide)⟩,
   ⟨by decide,
    (extractKey_roundtrip pubBase "gallery/a.jpg" "ftp://other/x").2 (by decide)⟩⟩

/-- generateGalleryKey splits as directory base, then uuid, then the
variant tag and extension. -/
theorem generateGalleryKey_decomp (mt fn sz u : String) (d : DateParts) :
    generateGalleryKey mt fn sz d u =
      galleryKeyBase mt d ++ u ++
        ((if sz = "original" then "" else "-" ++ sz) ++
          (if sz = "original" then extname fn else ".webp")) := by
  apply String.ext_iff.mpr
  simp [generateGalleryKey, galleryKeyBase, String.data_append]

/-- Claim C8: a generated gallery key has exactly the documented shape -
gallery prefix, media-type directory, zero-padded date path, uuid, empty
tag with the source extension for the original and a size tag with the
fixed .webp extension for a variant - and two calls whose uuid draws
differ (uuids have one fixed length) yield different keys. -/
theorem generateGalleryKey_format (mt fn sz u₁ u₂ : String) (d : DateParts) :
    generateGalleryKey mt fn sz d u₁ =
      "gallery/" ++ mt ++ "/" ++ toString d.year ++ "/" ++ pad2 d.month ++
        "/" ++ pad2 d.day ++ "/" ++ u₁ ++
        (if sz = "original" then "" else "-" ++ sz) ++
        (if sz = "original" then extname fn else ".webp") ∧
    (u₁.length = u₂.length → u₁ ≠ u₂ →
      generateGalleryKey mt fn sz d u₁ ≠ generateGalleryKey mt fn sz d u₂) := by
  refine ⟨rfl, ?_⟩
  intro hlen hne heq
  apply hne
  rw [generateGalleryKey_decomp, generateGalleryKey_decomp] at heq
  have h1 := congrArg String.data heq
  simp only [String.data_append] at h1
  exact String.ext_iff.mpr
    (List.append_cancel_left (List.append_cancel_right h1))

/-- Claim C8, witness: two uuid draws of the standard 36-character format
give distinct keys for the same file, variant and date. -/
theorem generateGalleryKey_format_witness :
    generateGalleryKey "images" "a.jpg" "original" (DateParts.mk 2025 10 1)
        "11111111-1111-1111-1111-111111111111" ≠
      generateGalleryKey "images" "a.jpg" "original" (DateParts.mk 2025 10 1)
        "22222222-2222-2222-2222-222222222222" :=
  (generateGalleryKey_format "images" "a.jpg" "original"
    "11111111-1111-1111-1111-111111111111"
    "22222222-2222-2222-2222-222222222222" (DateParts.mk 2025 10 1)).2
    (by decide) (by decide)

/-- Membership through displayOrder insertion. -/
theorem mem_insertByDisplayOrder {m x : MediaRecord} {l : List MediaRecord}
    (h : m ∈ insertByDisplayOrder x l) : m = x ∨ m ∈ l := by
  induction l with
  | nil => simpa [insertByDisplayOrder] using h
  | cons y ys ih =>
    by_cases hle : x.displayOrder ≤ y.displayOrder
    · simp [insertByDisplayOrder, hle] at h
      rcases h with h | h | h
      · exact Or.inl h
      · exact Or.inr (by simp [h])
      · exact Or.inr (by simp [h])
    · simp [insertByDisplayOrder, hle] at h
      rcases h with h | h
      · exact Or.inr (by simp [h])
      · rcases ih h with h2 | h2
        · exact Or.inl h2
        · exact Or.inr (by simp [h2])

/-- Membership through the displayOrder sort. -/
theorem mem_sortByDisplayOrder {m : MediaRecord} {l : List MediaRecord}
    (h : m ∈ sortByDisplayOrder l) : m ∈ l := by
  induction l with
  | nil => simp [sortByDisplayOrder] at h
  | cons y ys ih =>
    have h2 : m ∈ insertByDisplayOrder y (sortByDisplayOrder ys) := h
    rcases mem_insertByDisplayOrder h2 with h3 | h3
    · simp [h3]
    · exact List.mem_cons_of_mem y (ih h3)

/-- Claim C7: the featured cache is the single slot initialised with a ttl
of five minutes, which every read preserves; a read serves the cached
payload exactly when the slot holds data and now - timestamp < ttl, and
on an empty or expired slot recomputes the featured listing - drawn only
from catalog rows that are featured and not soft-deleted - and
repopulates the slot with the fresh payload and timestamp. -/
theorem featuredCache_read (cache : FeaturedCache) (now : Int)
    (db : List MediaRecord) :
    initialFeaturedCache.ttl = 300000 ∧
    (featuredRead cache now db).2.2.ttl = cache.ttl ∧
    (∀ d t, cache.data = some d → cache.timestamp = some t → t ≠ 0 →
      ((now - t < cache.ttl) ↔
        featuredRead cache now db = (d, true, cache))) ∧
    (cache.data = none →
      featuredRead cache now db = (computeFeaturedItems db, false,
        FeaturedCache.mk (some (computeFeaturedItems db)) (some now) cache.ttl)) ∧
    (∀ d t, cache.data = some d → cache.timestamp = some t → t ≠ 0 →
      ¬ (now - t < cache.ttl) →
      featuredRead cache now db = (computeFeaturedItems db, false,
        FeaturedCache.mk (some (computeFeaturedItems db)) (some now) cache.ttl)) ∧
    (∀ m, m ∈ computeFeaturedItems db →
      m.featured = true ∧ m.deletedAt = none ∧ m ∈ db) := by
  refine ⟨rfl, ?_, ?_, ?_, ?_, ?_⟩
  · rcases hd : cache.data with _ | d <;> rcases ht : cache.timestamp with _ | t
    all_goals simp only [featuredRead, hd, ht]
    all_goals (try split)
    all_goals simp
  · intro d t hd ht ht0
    constructor
    · intro hfresh
      simp [featuredRead, hd, ht, ht0, hfresh]
    · intro heq
      by_contra hstale
      simp [featuredRead, hd, ht, ht0, hstale] at heq
  · intro hd
    rcases ht : cache.timestamp with _ | t <;> simp [featuredRead, hd, ht]
  · intro d t hd ht ht0 hstale
    simp [featuredRead, hd, ht, ht0, hstale]
  · intro m hm
    have h1 : m ∈ sortByDisplayOrder
        (db.filter (fun r => r.featured ∧ r.deletedAt = none)) :=
      List.mem_of_mem_take hm
    have h2 := mem_sortByDisplayOrder h1
    have h3 := List.mem_filter.mp h2
    have h4 : m.featured = true ∧ m.deletedAt = none := by simpa using h3.2
    exact ⟨h4.1, h4.2, h3.1⟩

/-- Claim C7, witness: a warm slot populated at time 10 is served at time
20 (within ttl), the same slot is recomputed at an expired time, and the
initial ttl is five minutes in milliseconds. -/
theorem featuredCache_read_witness :
    featuredRead hitCache 20 [] = ([featRec], true, hitCache) ∧
    featuredRead hitCache 400000 [] = ([], false,
      FeaturedCache.mk (some []) (some 400000) 300000) ∧
    initialFeaturedCache.ttl = 300000 := by
  refine ⟨?_, ?_, (featuredCache_read hitCache 20 []).1⟩
  · exact ((featuredCache_read hitCache 20 []).2.2.1 [featRec] 10 rfl rfl
      (by decide)).mp (by decide)
  · have h := (featuredCache_read hitCache 400000 []).2.2.2.2.1 [featRec] 10
      rfl rfl (by decide) (by decide)
    simpa [computeFeaturedItems, sortByDisplayOrder] using h

/-- A file that passes validateMediaFile is within its kind's size limit. -/
theorem validateMediaFile_ok_size {f : MulterFile} {mt : String}
    {ci cv : MediaKindConfig}
    (h : validateMediaFile (some f) mt ci cv = Except.ok ()) :
    f.size ≤ (if mt = "video" then cv else ci).maxSize := by
  by_contra hgt
  simp only [validateMediaFile] at h
  split_ifs at h <;> simp_all

/-- A file that passes validateVideo is within the video size limit. -/
theorem validateVideo_ok_size {f : MulterFile} {cv : MediaKindConfig}
    (h : validateVideo (some f) cv = Except.ok ()) :
    f.size ≤ cv.maxSize := by
  by_contra hgt
  simp only [validateVideo] at h
  split_ifs at h
  all_goals simp_all

/-- Claim C4: on both pipelines, a file over its kind's size ceiling fails
with an empty event trace - zero object-store writes and zero processing
steps - and whenever a pipeline emitted any event at all, validation had
succeeded and the successful-validation event heads the trace, so every
processing step and store call comes after a completed validation. -/
theorem upload_validates_first (imageConfig videoConfig : MediaKindConfig)
    (env : UploadEnv) (file : MulterFile) :
    (file.size > imageConfig.maxSize →
      ∃ e, uploadImageRun imageConfig videoConfig env file =
        (Except.error e, [])) ∧
    ((uploadImageRun imageConfig videoConfig env file).2 ≠ [] →
      validateMediaFile (some file) "image" imageConfig videoConfig =
        Except.ok () ∧
      (uploadImageRun imageConfig videoConfig env file).2.head? =
        some (PipeEv.validated "image")) ∧
    (file.size > videoConfig.maxSize →
      ∃ e, uploadVideoRun videoConfig env file = (Except.error e, [])) ∧
    ((uploadVideoRun videoConfig env file).2 ≠ [] →
      validateVideo (some file) videoConfig = Except.ok () ∧
      (uploadVideoRun videoConfig env file).2.head? =
        some (PipeEv.validated "video")) := by
  refine ⟨?_, ?_, ?_, ?_⟩
  · intro hsz
    cases hv : validateMediaFile (some file) "image" imageConfig videoConfig with
    | error e =>
      exact ⟨UploadErr.validation e, by simp [uploadImageRun, hv]⟩
    | ok u =>
      exfalso
      cases u
      have hle := validateMediaFile_ok_size hv
      simp at hle
      omega
  · intro htr
    cases hv : validateMediaFile (some file) "image" imageConfig videoConfig with
    | error e =>
      exfalso
      apply htr
      simp [uploadImageRun, hv]
    | ok u =>
      cases u
      refine ⟨rfl, ?_⟩
      simp only [uploadImageRun, hv]
      repeat' split
      all_goals rfl
  · intro hsz
    cases hv : validateVideo (some file) videoConfig with
    | error e =>
      exact ⟨UploadErr.validation e, by simp [uploadVideoRun, hv]⟩
    | ok u =>
      exfalso
      cases u
      have hle := validateVideo_ok_size hv
      omega
  · intro htr
    cases hv : validateVideo (some file) videoConfig with
    | error e =>
      exfalso
      apply htr
      simp [uploadVideoRun, hv]
    | ok u =>
      cases u
      refine ⟨rfl, ?_⟩
      simp only [uploadVideoRun, hv]
      repeat' split
      all_goals rfl

/-- Claim C4, witness: the oversized image and video fail with empty
traces under an all-success environment, while the valid small image
produces a trace and its validation succeeded. -/
theorem upload_validates_first_witness :
    (oversizedImage.size > imageConfigDefault.maxSize ∧
      ∃ e, uploadImageRun imageConfigDefault videoConfigDefault happyEnv
        oversizedImage = (Except.error e, [])) ∧
    (oversizedVideo.size > videoConfigDefault.maxSize ∧
      ∃ e, uploadVideoRun videoConfigDefault happyEnv oversizedVideo =
        (Except.error e, [])) ∧
    ((uploadImageRun imageConfigDefault videoConfigDefault happyEnv
        smallImage).2 ≠ [] ∧
      validateMediaFile (some smallImage) "image" imageConfigDefault
        videoConfigDefault = Except.ok ()) := by
  have h1 := upload_validates_first imageConfigDefault videoConfigDefault
    happyEnv oversizedImage
  have h2 := upload_validates_first imageConfigDefault videoConfigDefault
    happyEnv oversizedVideo
  have h3 := upload_validates_first imageConfigDefault videoConfigDefault
    happyEnv smallImage
  exact ⟨⟨by decide, h1.1 (by decide)⟩, ⟨by decide, h2.2.2.1 (by decide)⟩,
    ⟨by decide, (h3.2.1 (by decide)).1⟩⟩

/-- Claim C10, witness: an already-soft-deleted row (stamped at 5) listed
in the batch is re-stamped at 99, an unknown id changes nothing, and the
count reflects the one matched row. -/
theorem bulkDeleteMedia_stamps_witness :
    (bulkDeleteMedia [recDel] 99 ["d", "zz"]).1[0]? =
      some { recDel with deletedAt := some 99 } ∧
    (bulkDeleteMedia [recDel] 99 ["d", "zz"]).2.1 = 1 ∧
    (bulkDeleteMedia [recDel] 99 ["d", "zz"]).2.2 = ["d", "zz"] := by
  have h := bulkDeleteMedia_stamps [recDel] 99 ["d", "zz"]
  refine ⟨?_, ?_, h.1⟩
  · have h4 := h.2.2.2 0 recDel rfl
    simpa using h4
  · simpa using h.2.1

/-- One reorder update keeps every row's id. -/
theorem reorderStep_id (m : MediaRecord) (it : ReorderItem) :
    (reorderStep m it).id = m.id := by
  unfold reorderStep
  split <;> rfl

/-- The transaction fold acts row-wise. -/
theorem foldl_applyReorderUpdate (items : List ReorderItem)
    (db : List MediaRecord) :
    items.foldl applyReorderUpdate db =
      db.map (fun m => items.foldl reorderStep m) := by
  induction items generalizing db with
  | nil => simp
  | cons it rest ih =>
    rw [List.foldl_cons, ih, applyReorderUpdate, List.map_map]
    rfl

/-- A row matched by no item of the batch is left unchanged by the fold. -/
theorem foldl_reorderStep_of_not_mem (items : List ReorderItem)
    (m : MediaRecord) (h : ∀ it ∈ items, it.id ≠ m.id) :
    items.foldl reorderStep m = m := by
  induction items with
  | nil => rfl
  | cons it rest ih =>
    have h1 : it.id ≠ m.id := h it (by simp)
    have hstep : reorderStep m it = m := by
      unfold reorderStep
      rw [if_neg]
      intro he
      exact h1 he.symm
    rw [List.foldl_cons, hstep]
    exact ih (fun x hx => h x (by simp [hx]))

/-- With pairwise-distinct item ids, the fold gives a matched row the
displayOrder of its (unique) item. -/
theorem foldl_reorderStep_of_mem (items : List ReorderItem)
    (m : MediaRecord) (it : ReorderItem)
    (hnd : (items.map (fun i => i.id)).Nodup) (hmem : it ∈ items)
    (hid : it.id = m.id) :
    items.foldl reorderStep m = { m with displayOrder := it.displayOrder } := by
  induction items with
  | nil => cases hmem
  | cons hd rest ih =>
    have hnd2 : (rest.map (fun i => i.id)).Nodup := (List.nodup_cons.mp hnd).2
    have hhd : hd.id ∉ rest.map (fun i => i.id) := (List.nodup_cons.mp hnd).1
    rcases List.mem_cons.mp hmem with hcase | hcase
    · subst hcase
      have hstep : reorderStep m it = { m with displayOrder := it.displayOrder } := by
        unfold reorderStep
        rw [if_pos hid.symm]
      rw [List.foldl_cons, hstep]
      apply foldl_reorderStep_of_not_mem
      intro x hx hxe
      apply hhd
      have hxi : x.id = it.id := by
        rw [show ({ m with displayOrder := it.displayOrder} : MediaRecord).id = m.id
          from rfl] at hxe
        rw [hxe, ← hid]
      rw [← hxi]
      exact List.mem_map_of_mem _ hx
    · have hne : hd.id ≠ m.id := by
        intro he
        apply hhd
        rw [he, ← hid]
        exact List.mem_map_of_mem _ hcase
      have hstep : reorderStep m hd = m := by
        unfold reorderStep
        rw [if_neg]
        intro he2
        exact hne he2.symm
      rw [List.foldl_cons, hstep]
      exact ih hnd2 hcase

/-- Membership in the ids of the rows the reorder pre-check finds: exactly
the requested ids that name a non-soft-deleted row. -/
theorem mem_reorderActiveIds (db : List MediaRecord) (items : List ReorderItem)
    (i : String) :
    (i ∈ (db.filter (fun m =>
        (items.map (fun it => it.id)).contains m.id ∧ m.deletedAt = none)).map
          (fun m => m.id)) ↔
      (i ∈ items.map (fun it => it.id) ∧
        ∃ m ∈ db, m.id = i ∧ m.deletedAt = none) := by
  constructor
  · intro h
    rcases List.mem_map.mp h with ⟨m, hm, hid⟩
    have h2 := List.mem_filter.mp hm
    have h3 : m.id ∈ items.map (fun it => it.id) ∧ m.deletedAt = none := by
      simpa using h2.2
    subst hid
    exact ⟨h3.1, m, h2.1, rfl, h3.2⟩
  · rintro ⟨hin, m, hmdb, hid, hdel⟩
    apply List.mem_map.mpr
    refine ⟨m, List.mem_filter.mpr ⟨hmdb, ?_⟩, hid⟩
    simp [hid, hdel, hin]

/-- The ids of the pre-check result have no duplicates when the table ids
have none. -/
theorem reorderActiveIds_nodup (db : List MediaRecord) (items : List ReorderItem)
    (hdb : (db.map (fun m => m.id)).Nodup) :
    ((db.filter (fun m =>
        (items.map (fun it => it.id)).contains m.id ∧ m.deletedAt = none)).map
          (fun m => m.id)).Nodup := by
  have hsub : (db.filter (fun m =>
      (items.map (fun it => it.id)).contains m.id ∧ m.deletedAt = none)).Sublist db :=
    List.filter_sublist db
  exact (hsub.map (fun m => m.id)).nodup hdb

/-- Claim C1, amended: over a table with unique row ids, a reorder batch in
which some id names no non-soft-deleted row is answered not-found,
reporting exactly the requested ids naming no such row, with no row
changed; a batch whose ids all name non-soft-deleted rows and are
pairwise distinct commits in full: every listed row takes its item's
displayOrder and every other row is untouched. -/
theorem reorder_atomic (db : List MediaRecord) (items : List ReorderItem)
    (hdb : (db.map (fun m => m.id)).Nodup) :
    ((∃ it ∈ items, ¬ ∃ m ∈ db, m.id = it.id ∧ m.deletedAt = none) →
      (reorderHandler db items).2 = db ∧
      ∃ missing, (reorderHandler db items).1 = ReorderResponse.notFound missing ∧
        ∀ i, i ∈ missing ↔ (i ∈ items.map (fun it => it.id) ∧
          ¬ ∃ m ∈ db, m.id = i ∧ m.deletedAt = none)) ∧
    ((∀ it ∈ items, ∃ m ∈ db, m.id = it.id ∧ m.deletedAt = none) →
      (items.map (fun it => it.id)).Nodup →
      (reorderHandler db items).1 = ReorderResponse.ok items.length ∧
      (reorderHandler db items).2.length = db.length ∧
      (∀ (i : Nat) (m₀ : MediaRecord), db[i]? = some m₀ →
        ((∀ it ∈ items, it.id ≠ m₀.id) →
          (reorderHandler db items).2[i]? = some m₀) ∧
        (∀ it ∈ items, it.id = m₀.id →
          (reorderHandler db items).2[i]? =
            some { m₀ with displayOrder := it.displayOrder }))) := by
  constructor
  · rintro ⟨it, hit, hnone⟩
    simp only [reorderHandler]
    split
    case isTrue hcond =>
      refine ⟨rfl, _, rfl, ?_⟩
      intro i
      rw [List.mem_filter]
      constructor
      · rintro ⟨hin, hnotb⟩
        refine ⟨hin, ?_⟩
        intro hex
        have hmemb : i ∈ (db.filter (fun m =>
            (items.map (fun it => it.id)).contains m.id ∧ m.deletedAt = none)).map
              (fun m => m.id) :=
          (mem_reorderActiveIds db items i).mpr ⟨hin, hex⟩
        have hni : i ∉ (db.filter (fun m =>
            (items.map (fun it => it.id)).contains m.id ∧ m.deletedAt = none)).map
              (fun m => m.id) := by
          simpa using hnotb
        exact hni hmemb
      · rintro ⟨hin, hnex⟩
        refine ⟨hin, ?_⟩
        have hni : i ∉ (db.filter (fun m =>
            (items.map (fun it => it.id)).contains m.id ∧ m.deletedAt = none)).map
              (fun m => m.id) := by
          intro hmem
          exact hnex ((mem_reorderActiveIds db items i).mp hmem).2
        simpa using hni
    case isFalse hcond =>
      exfalso
      have hb_in : it.id ∈ items.map (fun it => it.id) :=
        List.mem_map_of_mem _ hit
      have hb_not : it.id ∉ (db.filter (fun m =>
          (items.map (fun it => it.id)).contains m.id ∧ m.deletedAt = none)).map
            (fun m => m.id) := by
        intro hmem
        exact hnone ((mem_reorderActiveIds db items it.id).mp hmem).2
      have hnd := reorderActiveIds_nodup db items hdb
      have hsub : (it.id :: (db.filter (fun m =>
          (items.map (fun it => it.id)).contains m.id ∧ m.deletedAt = none)).map
            (fun m => m.id)) ⊆ items.map (fun it => it.id) := by
        intro x hx
        rcases List.mem_cons.mp hx with hx1 | hx2
        · rw [hx1]; exact hb_in
        · exact ((mem_reorderActiveIds db items x).mp hx2).1
      have hsp := (List.nodup_cons.mpr ⟨hb_not, hnd⟩).subperm hsub
      have hle := hsp.length_le
      simp only [List.length_cons] at hle
      have heq : ¬ ((db.filter (fun m =>
          (items.map (fun it => it.id)).contains m.id ∧ m.deletedAt = none)).length ≠
            (items.map (fun it => it.id)).length) := hcond
      push_neg at heq
      have hlm := List.length_map (db.filter (fun m =>
        (items.map (fun it => it.id)).contains m.id ∧ m.deletedAt = none))
          (fun m => m.id)
      omega
  · intro hall hnodup
    simp only [reorderHandler]
    split
    case isTrue hcond =>
      exfalso
      have hnd := reorderActiveIds_nodup db items hdb
      have hsub1 : ((db.filter (fun m =>
          (items.map (fun it => it.id)).contains m.id ∧ m.deletedAt = none)).map
            (fun m => m.id)) ⊆ items.map (fun it => it.id) := by
        intro x hx
        exact ((mem_reorderActiveIds db items x).mp hx).1
      have hsub2 : items.map (fun it => it.id) ⊆ ((db.filter (fun m =>
          (items.map (fun it => it.id)).contains m.id ∧ m.deletedAt = none)).map
            (fun m => m.id)) := by
        intro x hx
        rcases List.mem_map.mp hx with ⟨it, hit, hxid⟩
        subst hxid
        exact (mem_reorderActiveIds db items it.id).mpr
          ⟨List.mem_map_of_mem _ hit, hall it hit⟩
      have h1 := (hnd.subperm hsub1).length_le
      have h2 := (hnodup.subperm hsub2).length_le
      have hlm := List.length_map (db.filter (fun m =>
        (items.map (fun it => it.id)).contains m.id ∧ m.deletedAt = none))
          (fun m => m.id)
      exact hcond (by omega)
    case isFalse hcond =>
      have htx : (items.all (fun it => db.any (fun m => m.id = it.id))) = true := by
        rw [List.all_eq_true]
        intro it hit
        rcases hall it hit with ⟨m, hmdb, hid, _⟩
        rw [List.any_eq_true]
        exact ⟨m, hmdb, by simp [hid]⟩
      simp only [runReorderTransaction, htx, if_true]
      refine ⟨trivial, ?_, ?_⟩
      · rw [foldl_applyReorderUpdate, List.length_map]
      · intro i m₀ hi
        constructor
        · intro hno
          rw [foldl_applyReorderUpdate, List.getElem?_map, hi]
          simp only [Option.map_some']
          rw [foldl_reorderStep_of_not_mem items m₀ hno]
        · intro itm hitm hid
          rw [foldl_applyReorderUpdate, List.getElem?_map, hi]
          simp only [Option.map_some']
          rw [foldl_reorderStep_of_mem items m₀ itm hnodup hitm hid]

/-- Claim C1, counterexample: a batch listing the same existing active id
twice - every id in it names an existing, non-soft-deleted row - is
nevertheless rejected as not-found (reporting an empty missing-id list)
and updates nothing. -/
theorem reorder_dup_ids_rejected :
    (∀ it ∈ dupItems, ∃ m ∈ [recA], m.id = it.id ∧ m.deletedAt = none) ∧
    reorderHandler [recA] dupItems = (ReorderResponse.notFound [], [recA]) := by
  constructor
  · decide
  · rfl

/-- Claim C1, witness: a singleton batch over a two-row table (one active,
one soft-deleted) commits - the listed row takes displayOrder 5, the
other row is untouched - under the unique-id and distinct-batch
hypotheses. -/
theorem reorder_atomic_witness :
    (reorderHandler [recA, recDel] [ReorderItem.mk "a" 5]).1 =
      ReorderResponse.ok 1 ∧
    (reorderHandler [recA, recDel] [ReorderItem.mk "a" 5]).2[0]? =
      some { recA with displayOrder := 5 } ∧
    (reorderHandler [recA, recDel] [ReorderItem.mk "a" 5]).2[1]? =
      some recDel := by
  have h := (reorder_atomic [recA, recDel] [ReorderItem.mk "a" 5]
    (by decide)).2 (by decide) (by decide)
  refine ⟨h.1, ?_, ?_⟩
  · exact (h.2.2 0 recA rfl).2 (ReorderItem.mk "a" 5) (by simp) rfl
  · exact (h.2.2 1 recDel rfl).1 (by decide)

end LaWed
